import Mathlib

/-!
Verification development for the e-learning schema layer
(`elearn/models_fixed.py`).

The Django model classes are embedded as plain record structures; the
database is a record of tables (lists of rows) plus the blob storage
backend (a list of stored blob names).  Rows carry their primary key,
their foreign-key columns, and every scalar column that a validation
rule, uniqueness constraint, ordering rule or lifecycle rule reads;
purely presentational columns (free-text, timestamps, counters) are not
modelled, as no rule in the source reads them.

Storage-level behaviour that Django derives from the declarations
(unique constraints, `unique_together`, cascade deletion) is modelled as
explicit state-passing operations that honour exactly the constraints
declared in the source file.
-/

namespace Elearn

/-- Row of the `User` model: pk plus the three role flags. -/
structure User where
  id : Nat
  username : String
  is_learner : Bool
  is_instructor : Bool
  is_admin : Bool
deriving DecidableEq

/-- Row of the `Profile` model: pk, the one-to-one `user` key and the
`email` column (the column the `clean` rule and the unique constraint
read). -/
structure Profile where
  id : Nat
  user : Nat
  email : String
deriving DecidableEq

/-- Row of the `Announcement` model. -/
structure Announcement where
  id : Nat
  user : Nat
deriving DecidableEq

/-- Row of the `Course` model. -/
structure Course where
  id : Nat
  name : String
deriving DecidableEq

/-- Row of the `Tutorial` model. -/
structure Tutorial where
  id : Nat
  course : Nat
  user : Nat
deriving DecidableEq

/-- Row of the `Notes` model: the `file` and `cover` columns hold the
name of the stored blob, `none` for SQL NULL. -/
structure Notes where
  id : Nat
  title : String
  file : Option String
  cover : Option String
  course : Nat
  user : Nat
deriving DecidableEq

/-- Row of the `Quiz` model with the three validated numeric columns.
`passing_score` is a FloatField holding percentages; it is modelled as a
rational number. -/
structure Quiz where
  id : Nat
  owner : Nat
  course : Nat
  time_limit_minutes : Nat
  passing_score : ℚ
  max_attempts : Nat
deriving DecidableEq

/-- Row of the `Question` model; `order` drives the Meta ordering
`(order, id)`. -/
structure Question where
  id : Nat
  quiz : Nat
  order : Nat
deriving DecidableEq

/-- Row of the `Answer` model. -/
structure Answer where
  id : Nat
  question : Nat
  is_correct : Bool
  order : Nat
deriving DecidableEq

/-- Row of the `Learner` model.  Its `user` one-to-one field is declared
with `primary_key=True`, so `user` is the primary key of the row. -/
structure Learner where
  user : Nat
deriving DecidableEq

/-- Row of the `Instructor` model. -/
structure Instructor where
  id : Nat
  user : Nat
deriving DecidableEq

/-- Row of the `TakenQuiz` model: the triple
`(learner, quiz, attempt_number)` is declared `unique_together`. -/
structure TakenQuiz where
  id : Nat
  learner : Nat
  quiz : Nat
  score : ℚ
  attempt_number : Nat
deriving DecidableEq

/-- Row of the `LearnerAnswer` model: `student` points at a Learner,
`answer` at the chosen Answer, and `question` is the denormalized
foreign key to the Question; `(student, question)` is declared
`unique_together`. -/
structure LearnerAnswer where
  id : Nat
  student : Nat
  answer : Nat
  question : Nat
deriving DecidableEq

/-- Database state: one table per model, plus the blob-storage backend
holding the names of the stored blobs. -/
structure DB where
  users : List User
  profiles : List Profile
  announcements : List Announcement
  courses : List Course
  tutorials : List Tutorial
  notes : List Notes
  quizzes : List Quiz
  questions : List Question
  answers : List Answer
  learners : List Learner
  instructors : List Instructor
  taken_quizzes : List TakenQuiz
  learner_answers : List LearnerAnswer
  storage : List String
deriving DecidableEq

/-- Empty database. -/
def DB.empty : DB :=
  ⟨[], [], [], [], [], [], [], [], [], [], [], [], [], []⟩

/-! ### Profile.clean and the email unique constraint -/

/-- Embedding of `Profile.clean`: raise `ValidationError("Email already
exists")` when the email is truthy (non-empty) and
`Profile.objects.filter(email=self.email).exclude(pk=self.pk).exists()`. -/
def Profile.clean (db : DB) (self : Profile) : Except String Unit :=
  if !(self.email == "") &&
      db.profiles.any (fun p => p.email == self.email && !(p.id == self.id)) then
    Except.error "Email already exists"
  else
    Except.ok ()

/-- Declared metadata of an email field. -/
structure EmailFieldSpec where
  unique : Bool
deriving DecidableEq

/-- Embedding of the declaration `email = models.EmailField(unique=True)`
on `Profile`: the field carries a storage-level unique constraint. -/
def Profile.email_field : EmailFieldSpec := ⟨true⟩

/-- Storage-level insert of a Profile row that bypasses `clean()`
entirely: the database still enforces the unique constraint declared on
the `email` column (rejecting the row with an integrity error and
leaving the state unchanged) because `Profile.email_field.unique` is
set. -/
def Profile.insert_bypassing_clean (db : DB) (self : Profile) :
    DB × Option String :=
  if Profile.email_field.unique &&
      db.profiles.any (fun p => p.email == self.email) then
    (db, some "IntegrityError: UNIQUE constraint failed: Profile.email")
  else
    ({ db with profiles := db.profiles ++ [self] }, none)

/-! ### TakenQuiz and LearnerAnswer storage-level uniqueness -/

/-- Storage-level insert of a TakenQuiz row, enforcing the primary-key
constraint and the declared
`unique_together = [learner, quiz, attempt_number]`.  A violating row is
rejected with an integrity error and the state is unchanged. -/
def TakenQuiz.insert (db : DB) (self : TakenQuiz) : DB × Option String :=
  if db.taken_quizzes.any (fun t => t.id == self.id) then
    (db, some "IntegrityError: UNIQUE constraint failed: TakenQuiz.id")
  else if db.taken_quizzes.any (fun t =>
      t.learner == self.learner && t.quiz == self.quiz &&
      t.attempt_number == self.attempt_number) then
    (db, some "IntegrityError: UNIQUE constraint failed: TakenQuiz.learner, TakenQuiz.quiz, TakenQuiz.attempt_number")
  else
    ({ db with taken_quizzes := db.taken_quizzes ++ [self] }, none)

/-- Storage-level insert of a LearnerAnswer row, enforcing the
primary-key constraint and the declared
`unique_together = [student, question]`. -/
def LearnerAnswer.insert (db : DB) (self : LearnerAnswer) :
    DB × Option String :=
  if db.learner_answers.any (fun t => t.id == self.id) then
    (db, some "IntegrityError: UNIQUE constraint failed: LearnerAnswer.id")
  else if db.learner_answers.any (fun t =>
      t.student == self.student && t.question == self.question) then
    (db, some "IntegrityError: UNIQUE constraint failed: LearnerAnswer.student, LearnerAnswer.question")
  else
    ({ db with learner_answers := db.learner_answers ++ [self] }, none)

/-! ### Quiz field validators -/

/-- Embedding of `django.core.validators.MinValueValidator(limit)`: the
value passes when `limit <= value`. -/
def min_value_validator (limit value : ℚ) : Bool :=
  limit ≤ value

/-- Embedding of `django.core.validators.MaxValueValidator(limit)`: the
value passes when `value <= limit`. -/
def max_value_validator (limit value : ℚ) : Bool :=
  value ≤ limit

/-- Field validation of a Quiz row: runs exactly the validators declared
on `time_limit_minutes` (Min 1, Max 180), `passing_score` (Min 0.0,
Max 100.0) and `max_attempts` (Min 1). -/
def Quiz.validate_fields (self : Quiz) : Bool :=
  min_value_validator 1 self.time_limit_minutes &&
  max_value_validator 180 self.time_limit_minutes &&
  min_value_validator 0 self.passing_score &&
  max_value_validator 100 self.passing_score &&
  min_value_validator 1 self.max_attempts

/-! ### Notes deletion lifecycle -/

/-- Truthiness of a Django file field: falsy when NULL or when the
stored name is empty. -/
def file_truthy : Option String → Bool
  | none => false
  | some s => !(s == "")

/-- Embedding of `FieldFile.delete(save=...)` for the `file` column:
removes the named blob from the storage backend and clears the column on
the in-memory row; only when `save` is true is the updated row written
back to the table. -/
def Notes.file_delete (db : DB) (self : Notes) (save : Bool) :
    DB × Notes :=
  match self.file with
  | none => (db, self)
  | some f =>
    let cleared : Notes := { self with file := none }
    let db1 : DB := { db with storage := db.storage.filter (fun b => !(b == f)) }
    (if save then
       { db1 with notes := db1.notes.map (fun n => if n.id == self.id then cleared else n) }
     else db1, cleared)

/-- Embedding of `FieldFile.delete(save=...)` for the `cover` column. -/
def Notes.cover_delete (db : DB) (self : Notes) (save : Bool) :
    DB × Notes :=
  match self.cover with
  | none => (db, self)
  | some c =>
    let cleared : Notes := { self with cover := none }
    let db1 : DB := { db with storage := db.storage.filter (fun b => !(b == c)) }
    (if save then
       { db1 with notes := db1.notes.map (fun n => if n.id == self.id then cleared else n) }
     else db1, cleared)

/-- Blob-cleanup phase of `Notes.delete`: `if self.file:
self.file.delete(save=False)` then `if self.cover:
self.cover.delete(save=False)`. -/
def Notes.delete_blobs (db : DB) (self : Notes) : DB × Notes :=
  let s1 := if file_truthy self.file then Notes.file_delete db self false else (db, self)
  if file_truthy s1.2.cover then Notes.cover_delete s1.1 s1.2 false else s1

/-- Embedding of the overridden `Notes.delete`: discard the blobs with
`save=False`, then `super().delete()` removes the row by primary key. -/
def Notes.delete (db : DB) (self : Notes) : DB :=
  let s := Notes.delete_blobs db self
  { s.1 with notes := s.1.notes.filter (fun n => !(n.id == self.id)) }

/-! ### Learner.get_unanswered_questions -/

/-- Ordering used by `.order_by(order, id)` on questions: by `order`,
ties broken by `id`. -/
def questionLe (a b : Question) : Prop :=
  a.order < b.order ∨ (a.order = b.order ∧ a.id ≤ b.id)

instance : DecidableRel questionLe := fun a b => by
  unfold questionLe; infer_instance

instance : IsTotal Question questionLe :=
  ⟨by intro a b; unfold questionLe; omega⟩

instance : IsTrans Question questionLe :=
  ⟨by intro a b c; unfold questionLe; omega⟩

/-- Dereference chain `answer__question` used by the filter
`answer__question__quiz=quiz` and the projection
`values_list(answer__question__pk)`: follow the `answer` foreign key,
then the `question` foreign key of that answer, and keep the question pk
when that question belongs to the given quiz. -/
def LearnerAnswer.chain_question_pk (db : DB) (quiz : Quiz)
    (la : LearnerAnswer) : Option Nat :=
  (db.answers.find? (fun a => a.id == la.answer)).bind (fun a =>
    (db.questions.find? (fun q => q.id == a.question)).bind (fun q =>
      if q.quiz == quiz.id then some q.id else none))

/-- Embedding of the query `self.quiz_answers
.filter(answer__question__quiz=quiz)
.values_list(answer__question__pk, flat=True)`:
`self.quiz_answers` is the set of LearnerAnswer rows whose `student`
foreign key is this learner. -/
def Learner.answered_question_pks (db : DB) (self : Learner) (quiz : Quiz) :
    List Nat :=
  (db.learner_answers.filter (fun la => la.student == self.user)).filterMap
    (LearnerAnswer.chain_question_pk db quiz)

/-- Embedding of `Learner.get_unanswered_questions`:
`quiz.questions.exclude(pk__in=answered_questions).order_by(order, id)`. -/
def Learner.get_unanswered_questions (db : DB) (self : Learner) (quiz : Quiz) :
    List Question :=
  let answered_questions := Learner.answered_question_pks db self quiz
  List.insertionSort questionLe
    ((db.questions.filter (fun q => q.quiz == quiz.id)).filter
      (fun q => !(answered_questions.contains q.id)))

/-- The same query as a state-passing operation: it is a pure read, so
the database state it returns is the state it was given. -/
def Learner.get_unanswered_questions_op (db : DB) (self : Learner)
    (quiz : Quiz) : List Question × DB :=
  (Learner.get_unanswered_questions db self quiz, db)

/-! ### Schema relations and cascade deletion -/

/-- Deletion behaviour declared on a relation. -/
inductive OnDelete
  | cascade
  | protect
  | set_null
  | do_nothing
deriving DecidableEq

/-- Kind of a relation field. -/
inductive RelKind
  | foreign_key
  | one_to_one
deriving DecidableEq

/-- One declared relation field: child model, field name, parent model,
kind, and the declared `on_delete` behaviour. -/
structure SchemaRelation where
  child : String
  field : String
  parent : String
  kind : RelKind
  on_delete : OnDelete
deriving DecidableEq

/-- Every ForeignKey and OneToOneField declaration in the source file,
in order of appearance. -/
def schema_relations : List SchemaRelation :=
  [ ⟨"Profile", "user", "User", RelKind.one_to_one, OnDelete.cascade⟩,
    ⟨"Announcement", "user", "User", RelKind.foreign_key, OnDelete.cascade⟩,
    ⟨"Tutorial", "course", "Course", RelKind.foreign_key, OnDelete.cascade⟩,
    ⟨"Tutorial", "user", "User", RelKind.foreign_key, OnDelete.cascade⟩,
    ⟨"Notes", "course", "Course", RelKind.foreign_key, OnDelete.cascade⟩,
    ⟨"Notes", "user", "User", RelKind.foreign_key, OnDelete.cascade⟩,
    ⟨"Quiz", "owner", "User", RelKind.foreign_key, OnDelete.cascade⟩,
    ⟨"Quiz", "course", "Course", RelKind.foreign_key, OnDelete.cascade⟩,
    ⟨"Question", "quiz", "Quiz", RelKind.foreign_key, OnDelete.cascade⟩,
    ⟨"Answer", "question", "Question", RelKind.foreign_key, OnDelete.cascade⟩,
    ⟨"Learner", "user", "User", RelKind.one_to_one, OnDelete.cascade⟩,
    ⟨"Instructor", "user", "User", RelKind.one_to_one, OnDelete.cascade⟩,
    ⟨"TakenQuiz", "learner", "Learner", RelKind.foreign_key, OnDelete.cascade⟩,
    ⟨"TakenQuiz", "quiz", "Quiz", RelKind.foreign_key, OnDelete.cascade⟩,
    ⟨"LearnerAnswer", "student", "Learner", RelKind.foreign_key, OnDelete.cascade⟩,
    ⟨"LearnerAnswer", "answer", "Answer", RelKind.foreign_key, OnDelete.cascade⟩,
    ⟨"LearnerAnswer", "question", "Question", RelKind.foreign_key, OnDelete.cascade⟩ ]

/-- Primary keys handed to a delete call, one list per table; deleting a
single record is the special case where exactly one list holds exactly
one pk. -/
structure DeletionRoots where
  users : List Nat
  profiles : List Nat
  announcements : List Nat
  courses : List Nat
  tutorials : List Nat
  notes : List Nat
  quizzes : List Nat
  questions : List Nat
  answers : List Nat
  learners : List Nat
  instructors : List Nat
  taken_quizzes : List Nat
  learner_answers : List Nat
deriving DecidableEq

/-- Collected User pks: the roots (User has no cascading parent). -/
def del_users (r : DeletionRoots) : List Nat := r.users

/-- Collected Course pks: the roots (Course has no cascading parent). -/
def del_courses (r : DeletionRoots) : List Nat := r.courses

/-- Collected Profile pks: roots plus rows whose `user` is collected. -/
def del_profiles (db : DB) (r : DeletionRoots) : List Nat :=
  r.profiles ++
    (db.profiles.filter (fun p => (del_users r).contains p.user)).map (fun p => p.id)

/-- Collected Announcement pks. -/
def del_announcements (db : DB) (r : DeletionRoots) : List Nat :=
  r.announcements ++
    (db.announcements.filter (fun a => (del_users r).contains a.user)).map (fun a => a.id)

/-- Collected Tutorial pks: cascade from `user` or `course`. -/
def del_tutorials (db : DB) (r : DeletionRoots) : List Nat :=
  r.tutorials ++
    (db.tutorials.filter (fun t =>
      (del_users r).contains t.user || (del_courses r).contains t.course)).map (fun t => t.id)

/-- Collected Notes pks: cascade from `user` or `course`. -/
def del_notes (db : DB) (r : DeletionRoots) : List Nat :=
  r.notes ++
    (db.notes.filter (fun n =>
      (del_users r).contains n.user || (del_courses r).contains n.course)).map (fun n => n.id)

/-- Collected Quiz pks: cascade from `owner` or `course`. -/
def del_quizzes (db : DB) (r : DeletionRoots) : List Nat :=
  r.quizzes ++
    (db.quizzes.filter (fun q =>
      (del_users r).contains q.owner || (del_courses r).contains q.course)).map (fun q => q.id)

/-- Collected Question pks: cascade from `quiz`. -/
def del_questions (db : DB) (r : DeletionRoots) : List Nat :=
  r.questions ++
    (db.questions.filter (fun q => (del_quizzes db r).contains q.quiz)).map (fun q => q.id)

/-- Collected Answer pks: cascade from `question`. -/
def del_answers (db : DB) (r : DeletionRoots) : List Nat :=
  r.answers ++
    (db.answers.filter (fun a => (del_questions db r).contains a.question)).map (fun a => a.id)

/-- Collected Learner pks: cascade from `user` (the pk itself). -/
def del_learners (db : DB) (r : DeletionRoots) : List Nat :=
  r.learners ++
    (db.learners.filter (fun l => (del_users r).contains l.user)).map (fun l => l.user)

/-- Collected Instructor pks: cascade from `user`. -/
def del_instructors (db : DB) (r : DeletionRoots) : List Nat :=
  r.instructors ++
    (db.instructors.filter (fun i => (del_users r).contains i.user)).map (fun i => i.id)

/-- Collected TakenQuiz pks: cascade from `learner` or `quiz`. -/
def del_taken_quizzes (db : DB) (r : DeletionRoots) : List Nat :=
  r.taken_quizzes ++
    (db.taken_quizzes.filter (fun t =>
      (del_learners db r).contains t.learner ||
      (del_quizzes db r).contains t.quiz)).map (fun t => t.id)

/-- Collected LearnerAnswer pks: cascade from `student`, `answer` or
`question`. -/
def del_learner_answers (db : DB) (r : DeletionRoots) : List Nat :=
  r.learner_answers ++
    (db.learner_answers.filter (fun la =>
      (del_learners db r).contains la.student ||
      (del_answers db r).contains la.answer ||
      (del_questions db r).contains la.question)).map (fun la => la.id)

/-- Cascade deletion as the Django collector performs it for a schema in
which every relation is declared `on_delete=CASCADE`: starting from the
root pks, collect per table the pks of all rows whose foreign keys point
into an already-collected table, following the declared relation graph,
then delete every collected pk from its table.  The collector performs a
bulk row deletion, so the overridden `Notes.delete` is not invoked and
the storage backend is left untouched. -/
def DB.cascade_delete (db : DB) (r : DeletionRoots) : DB :=
  { users := db.users.filter (fun u => !((del_users r).contains u.id))
    profiles := db.profiles.filter (fun p => !((del_profiles db r).contains p.id))
    announcements := db.announcements.filter (fun a => !((del_announcements db r).contains a.id))
    courses := db.courses.filter (fun c => !((del_courses r).contains c.id))
    tutorials := db.tutorials.filter (fun t => !((del_tutorials db r).contains t.id))
    notes := db.notes.filter (fun n => !((del_notes db r).contains n.id))
    quizzes := db.quizzes.filter (fun q => !((del_quizzes db r).contains q.id))
    questions := db.questions.filter (fun q => !((del_questions db r).contains q.id))
    answers := db.answers.filter (fun a => !((del_answers db r).contains a.id))
    learners := db.learners.filter (fun l => !((del_learners db r).contains l.user))
    instructors := db.instructors.filter (fun i => !((del_instructors db r).contains i.id))
    taken_quizzes := db.taken_quizzes.filter (fun t => !((del_taken_quizzes db r).contains t.id))
    learner_answers := db.learner_answers.filter (fun la => !((del_learner_answers db r).contains la.id))
    storage := db.storage }

/-- Referential integrity: every foreign-key and one-to-one column of
every stored row points at an existing parent row. -/
def DB.wf (db : DB) : Bool :=
  db.profiles.all (fun p => db.users.any (fun u => u.id == p.user)) &&
  db.announcements.all (fun a => db.users.any (fun u => u.id == a.user)) &&
  db.tutorials.all (fun t =>
    db.users.any (fun u => u.id == t.user) &&
    db.courses.any (fun c => c.id == t.course)) &&
  db.notes.all (fun n =>
    db.users.any (fun u => u.id == n.user) &&
    db.courses.any (fun c => c.id == n.course)) &&
  db.quizzes.all (fun q =>
    db.users.any (fun u => u.id == q.owner) &&
    db.courses.any (fun c => c.id == q.course)) &&
  db.questions.all (fun q => db.quizzes.any (fun z => z.id == q.quiz)) &&
  db.answers.all (fun a => db.questions.any (fun q => q.id == a.question)) &&
  db.learners.all (fun l => db.users.any (fun u => u.id == l.user)) &&
  db.instructors.all (fun i => db.users.any (fun u => u.id == i.user)) &&
  db.taken_quizzes.all (fun t =>
    db.learners.any (fun l => l.user == t.learner) &&
    db.quizzes.any (fun z => z.id == t.quiz)) &&
  db.learner_answers.all (fun la =>
    db.learners.any (fun l => l.user == la.student) &&
    db.answers.any (fun a => a.id == la.answer) &&
    db.questions.any (fun q => q.id == la.question))

/-! ## Theorems -/

/-- C7: Quiz field validation accepts a quiz exactly when
`time_limit_minutes` lies in [1,180], `passing_score` lies in [0,100]
and `max_attempts` is at least 1; a Quiz with `time_limit_minutes = 181`
is rejected and a Quiz with `passing_score = 70.0` is accepted. -/
theorem quiz_validate_fields_spec :
    (∀ q : Quiz, Quiz.validate_fields q = true ↔
      (1 ≤ q.time_limit_minutes ∧ q.time_limit_minutes ≤ 180 ∧
       0 ≤ q.passing_score ∧ q.passing_score ≤ 100 ∧ 1 ≤ q.max_attempts)) ∧
    Quiz.validate_fields ⟨1, 1, 1, 181, 70, 3⟩ = false ∧
    Quiz.validate_fields ⟨2, 1, 1, 30, 70, 3⟩ = true := by
  refine ⟨fun q => ?_, by decide, by decide⟩
  simp only [Quiz.validate_fields, min_value_validator, max_value_validator,
    Bool.and_eq_true, decide_eq_true_eq, and_assoc]
  constructor <;> rintro ⟨h1, h2, h3, h4, h5⟩ <;>
    exact ⟨by exact_mod_cast h1, by exact_mod_cast h2, by exact_mod_cast h3,
      by exact_mod_cast h4, by exact_mod_cast h5⟩

/-- C3: for a Profile with non-empty email, `clean` raises the
validation error exactly when some other stored profile (different pk)
has the same email; the own stored row never triggers it. -/
theorem profile_clean_spec (db : DB) (self : Profile) (h : self.email ≠ "") :
    (Profile.clean db self = Except.error "Email already exists" ↔
      ∃ p ∈ db.profiles, p.email = self.email ∧ p.id ≠ self.id) := by
  have he : (self.email == "") = false := by simp [h]
  unfold Profile.clean
  rcases hb : db.profiles.any (fun p => p.email == self.email && !(p.id == self.id)) with _ | _
  · have hb2 := hb
    simp only [List.any_eq_false, Bool.and_eq_true, Bool.not_eq_true', beq_iff_eq,
      beq_eq_false_iff_ne, ne_eq, not_and, not_not] at hb2
    simp [he, hb]
    exact hb2
  · have hb2 := hb
    simp only [List.any_eq_true, Bool.and_eq_true, Bool.not_eq_true', beq_iff_eq,
      beq_eq_false_iff_ne, ne_eq] at hb2
    simp [he, hb]
    exact hb2

/-- Concrete rows for the clean witness. -/
def clean_db : DB := { DB.empty with profiles := [⟨1, 1, "a@example.com"⟩] }

/-- Concrete profile submitting a duplicate email under a fresh pk. -/
def clean_profile : Profile := ⟨2, 2, "a@example.com"⟩

/-- Witness for C3 at a concrete database. -/
theorem profile_clean_spec_witness :
    (Profile.clean clean_db clean_profile = Except.error "Email already exists" ↔
      ∃ p ∈ clean_db.profiles, p.email = clean_profile.email ∧ p.id ≠ clean_profile.id) :=
  profile_clean_spec clean_db clean_profile (by decide)

/-- Concrete database for the C4 counterexample. -/
def c4_db : DB := { DB.empty with profiles := [⟨1, 1, "dup@example.com"⟩] }

/-- Concrete second profile with a duplicate email and a fresh pk. -/
def c4_profile : Profile := ⟨2, 2, "dup@example.com"⟩

/-- C4 counterexample: the email column is declared with a storage-level
unique constraint (`unique=True`), and a storage-level save that
bypasses `clean` is rejected with an integrity error when it would
duplicate an existing email, leaving the state unchanged — refuting the
claim that uniqueness is enforced only by the application-level check
and that a save bypassing `clean` can store two profiles with the same
email. -/
theorem profile_email_unique_counterexample :
    Profile.email_field.unique = true ∧
    (Profile.insert_bypassing_clean c4_db c4_profile).2.isSome = true ∧
    (Profile.insert_bypassing_clean c4_db c4_profile).1 = c4_db := by
  decide

/-- C4 amended: Profile email uniqueness is enforced both by the
application-level `clean` validation and by the storage-level unique
constraint declared on the email field, so a save that bypasses `clean`
still fails with an integrity error, leaving the state unchanged,
whenever a stored profile already has the same email. -/
theorem profile_email_unique_amended (db : DB) (self : Profile)
    (h : ∃ p ∈ db.profiles, p.email = self.email) :
    Profile.email_field.unique = true ∧
    (Profile.insert_bypassing_clean db self).2.isSome = true ∧
    (Profile.insert_bypassing_clean db self).1 = db := by
  obtain ⟨p, hp, hpe⟩ := h
  have hany : db.profiles.any (fun p => p.email == self.email) = true := by
    simp only [List.any_eq_true, beq_iff_eq]
    exact ⟨p, hp, hpe⟩
  refine ⟨rfl, ?_, ?_⟩ <;>
    simp [Profile.insert_bypassing_clean, Profile.email_field, hany]

/-- Witness for the amended C4 at a concrete database. -/
theorem profile_email_unique_amended_witness :
    Profile.email_field.unique = true ∧
    (Profile.insert_bypassing_clean c4_db c4_profile).2.isSome = true ∧
    (Profile.insert_bypassing_clean c4_db c4_profile).1 = c4_db :=
  profile_email_unique_amended c4_db c4_profile ⟨⟨1, 1, "dup@example.com"⟩, by decide, by decide⟩

/-- C5: inserting a TakenQuiz whose (learner, quiz, attempt_number)
triple matches a stored row fails with an integrity error and leaves the
state unchanged; a row differing from every stored row in some component
of the triple (and with a fresh pk) is stored alongside them. -/
theorem taken_quiz_unique_together (db : DB) (t : TakenQuiz) :
    ((∃ r ∈ db.taken_quizzes, r.learner = t.learner ∧ r.quiz = t.quiz ∧
        r.attempt_number = t.attempt_number) →
      (TakenQuiz.insert db t).2.isSome = true ∧ (TakenQuiz.insert db t).1 = db) ∧
    ((∀ r ∈ db.taken_quizzes, r.id ≠ t.id) →
     (∀ r ∈ db.taken_quizzes, ¬(r.learner = t.learner ∧ r.quiz = t.quiz ∧
        r.attempt_number = t.attempt_number)) →
      (TakenQuiz.insert db t).2 = none ∧
      (TakenQuiz.insert db t).1.taken_quizzes = db.taken_quizzes ++ [t]) := by
  constructor
  · rintro ⟨r, hr, h1, h2, h3⟩
    have htrip : db.taken_quizzes.any (fun x =>
        x.learner == t.learner && x.quiz == t.quiz &&
        x.attempt_number == t.attempt_number) = true := by
      simp only [List.any_eq_true, Bool.and_eq_true, beq_iff_eq]
      exact ⟨r, hr, ⟨h1, h2⟩, h3⟩
    by_cases hpk : db.taken_quizzes.any (fun x => x.id == t.id) = true
    · constructor <;> simp [TakenQuiz.insert, hpk]
    · constructor <;> simp [TakenQuiz.insert, hpk, htrip]
  · intro hid htrip
    have hpk : db.taken_quizzes.any (fun x => x.id == t.id) = false := by
      simp only [List.any_eq_false, beq_iff_eq, ne_eq]
      exact fun r hr => hid r hr
    have ht2 : db.taken_quizzes.any (fun x =>
        x.learner == t.learner && x.quiz == t.quiz &&
        x.attempt_number == t.attempt_number) = false := by
      simp only [List.any_eq_false, Bool.and_eq_true, beq_iff_eq, not_and, and_imp]
      intro r hr hl hq
      have := htrip r hr
      tauto
    constructor <;> simp [TakenQuiz.insert, hpk, ht2]

/-- Concrete TakenQuiz table for the C5 witness. -/
def c5_db : DB :=
  { DB.empty with taken_quizzes := [⟨1, 10, 20, 85, 1⟩] }

/-- Duplicate triple (10,20,1) under a fresh pk. -/
def c5_dup : TakenQuiz := ⟨2, 10, 20, 90, 1⟩

/-- Same learner and quiz but a different attempt number. -/
def c5_fresh : TakenQuiz := ⟨2, 10, 20, 90, 2⟩

/-- Witness for C5: the duplicate triple is rejected with the state
unchanged, and the row with a different attempt number coexists. -/
theorem taken_quiz_unique_together_witness :
    ((TakenQuiz.insert c5_db c5_dup).2.isSome = true ∧
      (TakenQuiz.insert c5_db c5_dup).1 = c5_db) ∧
    ((TakenQuiz.insert c5_db c5_fresh).2 = none ∧
      (TakenQuiz.insert c5_db c5_fresh).1.taken_quizzes =
        c5_db.taken_quizzes ++ [c5_fresh]) :=
  ⟨(taken_quiz_unique_together c5_db c5_dup).1 ⟨⟨1, 10, 20, 85, 1⟩, by decide, by decide, by decide, by decide⟩,
   (taken_quiz_unique_together c5_db c5_fresh).2 (by decide) (by decide)⟩

/-- C6: inserting a LearnerAnswer whose (student, question) pair matches
a stored row fails with an integrity error and leaves the state
unchanged, so at most one stored answer per learner per question; a row
differing in the pair (with a fresh pk) is stored. -/
theorem learner_answer_unique_together (db : DB) (la : LearnerAnswer) :
    ((∃ r ∈ db.learner_answers, r.student = la.student ∧ r.question = la.question) →
      (LearnerAnswer.insert db la).2.isSome = true ∧ (LearnerAnswer.insert db la).1 = db) ∧
    ((∀ r ∈ db.learner_answers, r.id ≠ la.id) →
     (∀ r ∈ db.learner_answers, ¬(r.student = la.student ∧ r.question = la.question)) →
      (LearnerAnswer.insert db la).2 = none ∧
      (LearnerAnswer.insert db la).1.learner_answers = db.learner_answers ++ [la]) := by
  constructor
  · rintro ⟨r, hr, h1, h2⟩
    have hpair : db.learner_answers.any (fun x =>
        x.student == la.student && x.question == la.question) = true := by
      simp only [List.any_eq_true, Bool.and_eq_true, beq_iff_eq]
      exact ⟨r, hr, h1, h2⟩
    by_cases hpk : db.learner_answers.any (fun x => x.id == la.id) = true
    · constructor <;> simp [LearnerAnswer.insert, hpk]
    · constructor <;> simp [LearnerAnswer.insert, hpk, hpair]
  · intro hid hpair
    have hpk : db.learner_answers.any (fun x => x.id == la.id) = false := by
      simp only [List.any_eq_false, beq_iff_eq, ne_eq]
      exact fun r hr => hid r hr
    have hp2 : db.learner_answers.any (fun x =>
        x.student == la.student && x.question == la.question) = false := by
      simp only [List.any_eq_false, Bool.and_eq_true, beq_iff_eq, not_and]
      intro r hr hs
      have := hpair r hr
      tauto
    constructor <;> simp [LearnerAnswer.insert, hpk, hp2]

/-- Concrete LearnerAnswer table for the C6 witness. -/
def c6_db : DB :=
  { DB.empty with learner_answers := [⟨1, 10, 100, 50⟩] }

/-- Duplicate (student, question) pair (10, 50) under a fresh pk. -/
def c6_dup : LearnerAnswer := ⟨2, 10, 101, 50⟩

/-- Same student but a different question. -/
def c6_fresh : LearnerAnswer := ⟨2, 10, 101, 51⟩

/-- Witness for C6 at a concrete database. -/
theorem learner_answer_unique_together_witness :
    ((LearnerAnswer.insert c6_db c6_dup).2.isSome = true ∧
      (LearnerAnswer.insert c6_db c6_dup).1 = c6_db) ∧
    ((LearnerAnswer.insert c6_db c6_fresh).2 = none ∧
      (LearnerAnswer.insert c6_db c6_fresh).1.learner_answers =
        c6_db.learner_answers ++ [c6_fresh]) :=
  ⟨(learner_answer_unique_together c6_db c6_dup).1 ⟨⟨1, 10, 100, 50⟩, by decide, by decide, by decide⟩,
   (learner_answer_unique_together c6_db c6_fresh).2 (by decide) (by decide)⟩

/-- C2: the overridden Notes delete removes the stored file blob when
present, then the stored cover blob when present, without writing the
row back during the blob phase, and then removes the row itself; after
the delete neither blob of the record remains in storage and no row with
its pk remains. -/
theorem notes_delete_spec (db : DB) (self : Notes) :
    (∀ f, self.file = some f → f ≠ "" → f ∉ (Notes.delete db self).storage) ∧
    (∀ c, self.cover = some c → c ≠ "" → c ∉ (Notes.delete db self).storage) ∧
    (∀ n ∈ (Notes.delete db self).notes, n.id ≠ self.id) ∧
    (Notes.delete_blobs db self).1.notes = db.notes := by
  refine ⟨?_, ?_, ?_, ?_⟩
  · intro f hf hne hmem
    rcases hc : self.cover with _ | c
    · simp [Notes.delete, Notes.delete_blobs, Notes.file_delete, Notes.cover_delete,
        file_truthy, hf, hc, hne, List.mem_filter] at hmem
    · by_cases hce : c = "" <;>
        simp [Notes.delete, Notes.delete_blobs, Notes.file_delete, Notes.cover_delete,
          file_truthy, hf, hc, hne, hce, List.mem_filter] at hmem
  · intro c hc hne hmem
    rcases hf : self.file with _ | f
    · simp [Notes.delete, Notes.delete_blobs, Notes.file_delete, Notes.cover_delete,
        file_truthy, hf, hc, hne, List.mem_filter] at hmem
    · by_cases hfe : f = "" <;>
        simp [Notes.delete, Notes.delete_blobs, Notes.file_delete, Notes.cover_delete,
          file_truthy, hf, hc, hne, hfe, List.mem_filter] at hmem
  · intro n hn
    simp only [Notes.delete] at hn
    have := (List.mem_filter.mp hn).2
    simpa using this
  · rcases hf : self.file with _ | f
    · rcases hc : self.cover with _ | c
      · simp [Notes.delete_blobs, file_truthy, hf, hc]
      · by_cases hce : c = "" <;>
          simp [Notes.delete_blobs, Notes.cover_delete, file_truthy, hf, hc, hce]
    · by_cases hfe : f = ""
      · rcases hc : self.cover with _ | c
        · simp [Notes.delete_blobs, file_truthy, hf, hc, hfe]
        · by_cases hce : c = "" <;>
            simp [Notes.delete_blobs, Notes.cover_delete, file_truthy, hf, hc, hfe, hce]
      · rcases hc : self.cover with _ | c
        · simp [Notes.delete_blobs, Notes.file_delete, file_truthy, hf, hc, hfe]
        · by_cases hce : c = "" <;>
            simp [Notes.delete_blobs, Notes.file_delete, Notes.cover_delete,
              file_truthy, hf, hc, hfe, hce]

/-- Concrete Notes row with both blobs for the C2 witness. -/
def c2_note : Notes := ⟨7, "algebra", some "f.pdf", some "c.jpg", 1, 1⟩

/-- Concrete database whose storage holds both blobs of the row. -/
def c2_db : DB :=
  { DB.empty with notes := [c2_note], storage := ["f.pdf", "c.jpg", "other.txt"] }

/-- Witness for C2: after deleting the concrete row neither of its blobs
remains in storage. -/
theorem notes_delete_spec_witness :
    "f.pdf" ∉ (Notes.delete c2_db c2_note).storage ∧
    "c.jpg" ∉ (Notes.delete c2_db c2_note).storage :=
  ⟨(notes_delete_spec c2_db c2_note).1 "f.pdf" rfl (by decide),
   (notes_delete_spec c2_db c2_note).2.1 "c.jpg" rfl (by decide)⟩

/-- C9: the unanswered-questions query is a pure read: it leaves the
database unchanged, and running it twice in a row with no intervening
writes yields identical result sequences. -/
theorem get_unanswered_questions_idempotent (db : DB) (self : Learner) (quiz : Quiz) :
    (Learner.get_unanswered_questions_op db self quiz).2 = db ∧
    (Learner.get_unanswered_questions_op
        (Learner.get_unanswered_questions_op db self quiz).2 self quiz).1 =
      (Learner.get_unanswered_questions_op db self quiz).1 :=
  ⟨rfl, rfl⟩

/-- C10: the unanswered-questions query derives answered questions only
through the `answer` foreign key, so rewriting the denormalized
`question` column of every LearnerAnswer row arbitrarily (all other
columns unchanged) leaves the result unchanged. -/
theorem get_unanswered_questions_ignores_denormalized_question
    (db : DB) (self : Learner) (quiz : Quiz) (f : LearnerAnswer → Nat) :
    Learner.get_unanswered_questions
      { db with learner_answers :=
          db.learner_answers.map (fun la => { la with question := f la }) }
      self quiz =
    Learner.get_unanswered_questions db self quiz := by
  have hpk : Learner.answered_question_pks
      { db with learner_answers :=
          db.learner_answers.map (fun la => { la with question := f la }) } self quiz =
      Learner.answered_question_pks db self quiz := by
    unfold Learner.answered_question_pks
    rw [show ({ db with learner_answers :=
        db.learner_answers.map (fun la => { la with question := f la }) } : DB).learner_answers =
        db.learner_answers.map (fun la => { la with question := f la }) from rfl]
    rw [List.filter_map, List.filterMap_map]
    rfl
  simp only [Learner.get_unanswered_questions, hpk]

/-- Lookup by primary key: when the keys of a list are pairwise distinct,
`find?` on a key equation returns exactly the member carrying that key. -/
theorem find_by_key_of_nodup {α : Type} (l : List α) (key : α → Nat) (k : Nat)
    (hnd : (l.map key).Nodup) (a : α) (ha : a ∈ l) (hk : key a = k) :
    l.find? (fun x => key x == k) = some a := by
  induction l with
  | nil => cases ha
  | cons b tl ih =>
    rcases List.mem_cons.mp ha with rfl | hmem
    · have hb : (key a == k) = true := by simp [hk]
      simp [List.find?_cons, hb]
    · have hkb : (key b == k) = false := by
        simp only [beq_eq_false_iff_ne, ne_eq]
        intro he
        have hmm : key a ∈ tl.map key := List.mem_map_of_mem key hmem
        rw [hk] at hmm
        exact (List.nodup_cons.mp hnd).1 (he ▸ hmm)
      simp only [List.find?_cons, hkb, cond_false]
      exact ih (List.nodup_cons.mp hnd).2 hmem

/-- Membership in the answered-question projection, stated relationally:
a pk is listed exactly when some LearnerAnswer row of this learner links,
through an existing Answer row, to an existing Question row of the given
quiz carrying that pk.  Requires pairwise-distinct Question and Answer
pks, as in any well-formed database. -/
theorem mem_answered_question_pks (db : DB) (self : Learner) (quiz : Quiz)
    (hq : (db.questions.map (fun q => q.id)).Nodup)
    (ha : (db.answers.map (fun a => a.id)).Nodup) (pk : Nat) :
    pk ∈ Learner.answered_question_pks db self quiz ↔
      ∃ la ∈ db.learner_answers, la.student = self.user ∧
        ∃ a ∈ db.answers, a.id = la.answer ∧
          ∃ qq ∈ db.questions, qq.id = a.question ∧ qq.quiz = quiz.id ∧ qq.id = pk := by
  unfold Learner.answered_question_pks LearnerAnswer.chain_question_pk
  rw [List.mem_filterMap]
  constructor
  · rintro ⟨la, hla, hch⟩
    obtain ⟨hlamem, hstud⟩ := List.mem_filter.mp hla
    rw [Option.bind_eq_some] at hch
    obtain ⟨a, hfa, hch⟩ := hch
    rw [Option.bind_eq_some] at hch
    obtain ⟨qq, hfq, hch⟩ := hch
    have h1 := List.mem_of_find?_eq_some hfa
    have h2 : a.id = la.answer := by simpa using List.find?_some hfa
    have h3 := List.mem_of_find?_eq_some hfq
    have h4 : qq.id = a.question := by simpa using List.find?_some hfq
    by_cases hz : (qq.quiz == quiz.id) = true
    · rw [if_pos hz] at hch
      exact ⟨la, hlamem, by simpa using hstud, a, h1, h2, qq, h3, h4,
        by simpa using hz, by injection hch⟩
    · rw [if_neg hz] at hch
      cases hch
  · rintro ⟨la, hla, hstud, a, hamem, haid, qq, hqmem, hqid, hqz, hqpk⟩
    refine ⟨la, List.mem_filter.mpr ⟨hla, by simp [hstud]⟩, ?_⟩
    rw [find_by_key_of_nodup db.answers (fun x => x.id) la.answer ha a hamem haid]
    rw [Option.some_bind]
    rw [find_by_key_of_nodup db.questions (fun x => x.id) a.question hq qq hqmem hqid]
    rw [Option.some_bind]
    rw [if_pos (by simp [hqz])]
    rw [hqpk]

/-- C1: for pairwise-distinct Question and Answer pks, the
unanswered-questions query returns exactly the questions of the quiz
minus those for which this learner has a LearnerAnswer whose linked
Answer belongs to a Question of the quiz, as a sequence sorted by
(order, id). -/
theorem get_unanswered_questions_spec (db : DB) (self : Learner) (quiz : Quiz)
    (hq : (db.questions.map (fun q => q.id)).Nodup)
    (ha : (db.answers.map (fun a => a.id)).Nodup) :
    (∀ q : Question,
      q ∈ Learner.get_unanswered_questions db self quiz ↔
        (q ∈ db.questions ∧ q.quiz = quiz.id ∧
          ¬ ∃ la ∈ db.learner_answers, la.student = self.user ∧
            ∃ a ∈ db.answers, a.id = la.answer ∧ a.question = q.id)) ∧
    List.Sorted questionLe (Learner.get_unanswered_questions db self quiz) := by
  constructor
  · intro q
    simp only [Learner.get_unanswered_questions]
    rw [(List.perm_insertionSort questionLe _).mem_iff]
    rw [List.mem_filter, List.mem_filter]
    constructor
    · rintro ⟨⟨hmem, hquiz⟩, hexc⟩
      have hquiz2 : q.quiz = quiz.id := by simpa using hquiz
      refine ⟨hmem, hquiz2, ?_⟩
      rintro ⟨la, hla, hstud, a, hamem, haid, haq⟩
      have hin : q.id ∈ Learner.answered_question_pks db self quiz := by
        rw [mem_answered_question_pks db self quiz hq ha]
        exact ⟨la, hla, hstud, a, hamem, haid, q, hmem, haq.symm, hquiz2, rfl⟩
      have hnot : q.id ∉ Learner.answered_question_pks db self quiz := by
        simpa using hexc
      exact hnot hin
    · rintro ⟨hmem, hquiz, hnone⟩
      refine ⟨⟨hmem, by simp [hquiz]⟩, ?_⟩
      suffices hns : q.id ∉ Learner.answered_question_pks db self quiz by simpa using hns
      intro hin
      rw [mem_answered_question_pks db self quiz hq ha] at hin
      obtain ⟨la, hla, hstud, a, hamem, haid, qq, hqmem, hqid, hqz, hqpk⟩ := hin
      exact hnone ⟨la, hla, hstud, a, hamem, haid, by rw [← hqid, hqpk]⟩
  · simp only [Learner.get_unanswered_questions]
    exact List.sorted_insertionSort questionLe _

/-- Concrete quiz for the C1 witness. -/
def c1_quiz : Quiz := ⟨1, 1, 1, 30, 70, 3⟩

/-- Concrete learner for the C1 witness. -/
def c1_learner : Learner := ⟨5⟩

/-- Concrete database for the C1 witness: two questions, one of them
already answered by the learner. -/
def c1_db : DB :=
  { DB.empty with
      quizzes := [c1_quiz],
      questions := [⟨11, 1, 2⟩, ⟨12, 1, 1⟩],
      answers := [⟨21, 11, true, 1⟩],
      learners := [c1_learner],
      learner_answers := [⟨31, 5, 21, 11⟩] }

/-- Witness for C1 at a concrete database. -/
theorem get_unanswered_questions_spec_witness :
    (∀ q : Question,
      q ∈ Learner.get_unanswered_questions c1_db c1_learner c1_quiz ↔
        (q ∈ c1_db.questions ∧ q.quiz = c1_quiz.id ∧
          ¬ ∃ la ∈ c1_db.learner_answers, la.student = c1_learner.user ∧
            ∃ a ∈ c1_db.answers, a.id = la.answer ∧ a.question = q.id)) ∧
    List.Sorted questionLe (Learner.get_unanswered_questions c1_db c1_learner c1_quiz) :=
  get_unanswered_questions_spec c1_db c1_learner c1_quiz (by decide) (by decide)

/-- Boolean bridge: a negated contains flag gives a false contains flag. -/
theorem contains_false_of_bnot {l : List Nat} {k : Nat}
    (h : (!(l.contains k)) = true) : l.contains k = false := by
  cases hc : l.contains k
  · rfl
  · rw [hc] at h
    exact absurd h (by decide)

/-- Boolean bridge: a false contains flag gives non-membership. -/
theorem not_mem_of_contains_false {l : List Nat} {k : Nat}
    (h : l.contains k = false) : k ∉ l := by
  intro hk
  have hc : l.contains k = true := by simpa using hk
  rw [h] at hc
  exact absurd hc (by decide)

/-- A row surviving a pk-based deletion filter cannot satisfy the
cascade-collection condition of its table. -/
theorem fk_not_collected {γ : Type} (C : List γ) (cid : γ → Nat)
    (cond : γ → Bool) (roots : List Nat) (c : γ) (hc : c ∈ C)
    (hsurv : cid c ∉ roots ++ (C.filter cond).map cid) :
    cond c = false := by
  by_contra h
  rw [Bool.not_eq_false] at h
  exact hsurv (List.mem_append_right _
    (List.mem_map_of_mem cid (List.mem_filter.mpr ⟨hc, h⟩)))

/-- A parent row whose pk is not collected survives the deletion filter
of its table. -/
theorem parent_survives {π : Type} (P : List π) (pid : π → Nat)
    (delP : List Nat) (fk : Nat) (h1 : ∃ p ∈ P, pid p = fk)
    (h2 : fk ∉ delP) :
    ∃ p ∈ P.filter (fun x => !(delP.contains (pid x))), pid p = fk := by
  obtain ⟨p, hp, he⟩ := h1
  refine ⟨p, List.mem_filter.mpr ⟨hp, ?_⟩, he⟩
  simp [he, h2]

/-- A row surviving a pk-based deletion filter has its pk outside the
roots, since every root pk is collected. -/
theorem survivor_not_root {γ : Type} {C : List γ} {cid : γ → Nat}
    {delC roots : List Nat} (hsub : ∀ k ∈ roots, k ∈ delC) (c : γ)
    (hc : c ∈ C.filter (fun x => !(delC.contains (cid x)))) :
    cid c ∉ roots := by
  intro hk
  have h2 := (List.mem_filter.mp hc).2
  exact not_mem_of_contains_false (contains_false_of_bnot h2) (hsub _ hk)

/-- C8: every foreign-key and one-to-one relation in the schema is
declared cascade-on-delete, and cascade deletion preserves referential
integrity while removing every root pk: starting from a well-formed
database, after deleting any records no stored row references a deleted
parent and no root row remains. -/
theorem cascade_delete_spec :
    (∀ rel ∈ schema_relations, rel.on_delete = OnDelete.cascade) ∧
    (∀ (db : DB) (r : DeletionRoots), db.wf = true →
      (DB.cascade_delete db r).wf = true ∧
      (∀ u ∈ (DB.cascade_delete db r).users, u.id ∉ r.users) ∧
      (∀ c ∈ (DB.cascade_delete db r).courses, c.id ∉ r.courses) ∧
      (∀ p ∈ (DB.cascade_delete db r).profiles, p.id ∉ r.profiles) ∧
      (∀ a ∈ (DB.cascade_delete db r).announcements, a.id ∉ r.announcements) ∧
      (∀ t ∈ (DB.cascade_delete db r).tutorials, t.id ∉ r.tutorials) ∧
      (∀ n ∈ (DB.cascade_delete db r).notes, n.id ∉ r.notes) ∧
      (∀ z ∈ (DB.cascade_delete db r).quizzes, z.id ∉ r.quizzes) ∧
      (∀ q ∈ (DB.cascade_delete db r).questions, q.id ∉ r.questions) ∧
      (∀ a ∈ (DB.cascade_delete db r).answers, a.id ∉ r.answers) ∧
      (∀ l ∈ (DB.cascade_delete db r).learners, l.user ∉ r.learners) ∧
      (∀ i ∈ (DB.cascade_delete db r).instructors, i.id ∉ r.instructors) ∧
      (∀ t ∈ (DB.cascade_delete db r).taken_quizzes, t.id ∉ r.taken_quizzes) ∧
      (∀ la ∈ (DB.cascade_delete db r).learner_answers, la.id ∉ r.learner_answers)) := by
  refine ⟨by decide, ?_⟩
  intro db r hwf
  simp only [DB.wf, Bool.and_eq_true, and_assoc, List.all_eq_true,
    List.any_eq_true, beq_iff_eq] at hwf
  obtain ⟨hwProf, hwAnn, hwTut, hwNote, hwQuiz, hwQn, hwAns, hwLearn,
    hwInst, hwTQ, hwLA⟩ := hwf
  refine ⟨?_, ?_, ?_, ?_, ?_, ?_, ?_, ?_, ?_, ?_, ?_, ?_, ?_, ?_⟩
  · -- referential integrity of the cascaded state
    simp only [DB.wf, DB.cascade_delete, Bool.and_eq_true, and_assoc,
      List.all_eq_true, List.any_eq_true, beq_iff_eq]
    refine ⟨?_, ?_, ?_, ?_, ?_, ?_, ?_, ?_, ?_, ?_, ?_⟩
    · intro p hp
      obtain ⟨hm, hs⟩ := List.mem_filter.mp hp
      have hsurv : p.id ∉ del_profiles db r :=
        not_mem_of_contains_false (contains_false_of_bnot hs)
      have hcond := fk_not_collected db.profiles (fun x => x.id)
        (fun x => (del_users r).contains x.user) r.profiles p hm hsurv
      exact parent_survives db.users (fun x => x.id) (del_users r) p.user
        (hwProf p hm) (not_mem_of_contains_false hcond)
    · intro a ha
      obtain ⟨hm, hs⟩ := List.mem_filter.mp ha
      have hsurv : a.id ∉ del_announcements db r :=
        not_mem_of_contains_false (contains_false_of_bnot hs)
      have hcond := fk_not_collected db.announcements (fun x => x.id)
        (fun x => (del_users r).contains x.user) r.announcements a hm hsurv
      exact parent_survives db.users (fun x => x.id) (del_users r) a.user
        (hwAnn a hm) (not_mem_of_contains_false hcond)
    · intro t ht
      obtain ⟨hm, hs⟩ := List.mem_filter.mp ht
      have hsurv : t.id ∉ del_tutorials db r :=
        not_mem_of_contains_false (contains_false_of_bnot hs)
      have hcond := fk_not_collected db.tutorials (fun x => x.id)
        (fun x => (del_users r).contains x.user || (del_courses r).contains x.course)
        r.tutorials t hm hsurv
      obtain ⟨hu, hc⟩ := Bool.or_eq_false_iff.mp hcond
      exact ⟨parent_survives db.users (fun x => x.id) (del_users r) t.user
          (hwTut t hm).1 (not_mem_of_contains_false hu),
        parent_survives db.courses (fun x => x.id) (del_courses r) t.course
          (hwTut t hm).2 (not_mem_of_contains_false hc)⟩
    · intro n hn
      obtain ⟨hm, hs⟩ := List.mem_filter.mp hn
      have hsurv : n.id ∉ del_notes db r :=
        not_mem_of_contains_false (contains_false_of_bnot hs)
      have hcond := fk_not_collected db.notes (fun x => x.id)
        (fun x => (del_users r).contains x.user || (del_courses r).contains x.course)
        r.notes n hm hsurv
      obtain ⟨hu, hc⟩ := Bool.or_eq_false_iff.mp hcond
      exact ⟨parent_survives db.users (fun x => x.id) (del_users r) n.user
          (hwNote n hm).1 (not_mem_of_contains_false hu),
        parent_survives db.courses (fun x => x.id) (del_courses r) n.course
          (hwNote n hm).2 (not_mem_of_contains_false hc)⟩
    · intro z hz
      obtain ⟨hm, hs⟩ := List.mem_filter.mp hz
      have hsurv : z.id ∉ del_quizzes db r :=
        not_mem_of_contains_false (contains_false_of_bnot hs)
      have hcond := fk_not_collected db.quizzes (fun x => x.id)
        (fun x => (del_users r).contains x.owner || (del_courses r).contains x.course)
        r.quizzes z hm hsurv
      obtain ⟨hu, hc⟩ := Bool.or_eq_false_iff.mp hcond
      exact ⟨parent_survives db.users (fun x => x.id) (del_users r) z.owner
          (hwQuiz z hm).1 (not_mem_of_contains_false hu),
        parent_survives db.courses (fun x => x.id) (del_courses r) z.course
          (hwQuiz z hm).2 (not_mem_of_contains_false hc)⟩
    · intro q hq
      obtain ⟨hm, hs⟩ := List.mem_filter.mp hq
      have hsurv : q.id ∉ del_questions db r :=
        not_mem_of_contains_false (contains_false_of_bnot hs)
      have hcond := fk_not_collected db.questions (fun x => x.id)
        (fun x => (del_quizzes db r).contains x.quiz) r.questions q hm hsurv
      exact parent_survives db.quizzes (fun x => x.id) (del_quizzes db r) q.quiz
        (hwQn q hm) (not_mem_of_contains_false hcond)
    · intro a ha
      obtain ⟨hm, hs⟩ := List.mem_filter.mp ha
      have hsurv : a.id ∉ del_answers db r :=
        not_mem_of_contains_false (contains_false_of_bnot hs)
      have hcond := fk_not_collected db.answers (fun x => x.id)
        (fun x => (del_questions db r).contains x.question) r.answers a hm hsurv
      exact parent_survives db.questions (fun x => x.id) (del_questions db r)
        a.question (hwAns a hm) (not_mem_of_contains_false hcond)
    · intro l hl
      obtain ⟨hm, hs⟩ := List.mem_filter.mp hl
      have hsurv : l.user ∉ del_learners db r :=
        not_mem_of_contains_false (contains_false_of_bnot hs)
      have hcond := fk_not_collected db.learners (fun x => x.user)
        (fun x => (del_users r).contains x.user) r.learners l hm hsurv
      exact parent_survives db.users (fun x => x.id) (del_users r) l.user
        (hwLearn l hm) (not_mem_of_contains_false hcond)
    · intro i hi
      obtain ⟨hm, hs⟩ := List.mem_filter.mp hi
      have hsurv : i.id ∉ del_instructors db r :=
        not_mem_of_contains_false (contains_false_of_bnot hs)
      have hcond := fk_not_collected db.instructors (fun x => x.id)
        (fun x => (del_users r).contains x.user) r.instructors i hm hsurv
      exact parent_survives db.users (fun x => x.id) (del_users r) i.user
        (hwInst i hm) (not_mem_of_contains_false hcond)
    · intro t ht
      obtain ⟨hm, hs⟩ := List.mem_filter.mp ht
      have hsurv : t.id ∉ del_taken_quizzes db r :=
        not_mem_of_contains_false (contains_false_of_bnot hs)
      have hcond := fk_not_collected db.taken_quizzes (fun x => x.id)
        (fun x => (del_learners db r).contains x.learner ||
          (del_quizzes db r).contains x.quiz) r.taken_quizzes t hm hsurv
      obtain ⟨hl, hz⟩ := Bool.or_eq_false_iff.mp hcond
      exact ⟨parent_survives db.learners (fun x => x.user) (del_learners db r)
          t.learner (hwTQ t hm).1 (not_mem_of_contains_false hl),
        parent_survives db.quizzes (fun x => x.id) (del_quizzes db r) t.quiz
          (hwTQ t hm).2 (not_mem_of_contains_false hz)⟩
    · intro la hla
      obtain ⟨hm, hs⟩ := List.mem_filter.mp hla
      have hsurv : la.id ∉ del_learner_answers db r :=
        not_mem_of_contains_false (contains_false_of_bnot hs)
      have hcond := fk_not_collected db.learner_answers (fun x => x.id)
        (fun x => (del_learners db r).contains x.student ||
          (del_answers db r).contains x.answer ||
          (del_questions db r).contains x.question) r.learner_answers la hm hsurv
      obtain ⟨hrest, hqn⟩ := Bool.or_eq_false_iff.mp hcond
      obtain ⟨hst, hans⟩ := Bool.or_eq_false_iff.mp hrest
      exact ⟨parent_survives db.learners (fun x => x.user) (del_learners db r)
          la.student (hwLA la hm).1 (not_mem_of_contains_false hst),
        parent_survives db.answers (fun x => x.id) (del_answers db r) la.answer
          (hwLA la hm).2.1 (not_mem_of_contains_false hans),
        parent_survives db.questions (fun x => x.id) (del_questions db r)
          la.question (hwLA la hm).2.2 (not_mem_of_contains_false hqn)⟩
  · exact survivor_not_root (fun k hk => hk)
  · exact survivor_not_root (fun k hk => hk)
  · exact survivor_not_root (fun k hk => List.mem_append_left _ hk)
  · exact survivor_not_root (fun k hk => List.mem_append_left _ hk)
  · exact survivor_not_root (fun k hk => List.mem_append_left _ hk)
  · exact survivor_not_root (fun k hk => List.mem_append_left _ hk)
  · exact survivor_not_root (fun k hk => List.mem_append_left _ hk)
  · exact survivor_not_root (fun k hk => List.mem_append_left _ hk)
  · exact survivor_not_root (fun k hk => List.mem_append_left _ hk)
  · exact survivor_not_root (fun k hk => List.mem_append_left _ hk)
  · exact survivor_not_root (fun k hk => List.mem_append_left _ hk)
  · exact survivor_not_root (fun k hk => List.mem_append_left _ hk)
  · exact survivor_not_root (fun k hk => List.mem_append_left _ hk)

/-- Concrete database for the C8 witness: one user owning a quiz with a
question, an answer, a learner with an attempt and an answer record. -/
def c8_db : DB :=
  { DB.empty with
      users := [⟨1, "u", true, false, false⟩],
      profiles := [⟨8, 1, "e@x.com"⟩],
      courses := [⟨2, "c"⟩],
      quizzes := [⟨3, 1, 2, 30, 70, 3⟩],
      questions := [⟨4, 3, 1⟩],
      answers := [⟨5, 4, true, 1⟩],
      learners := [⟨1⟩],
      taken_quizzes := [⟨6, 1, 3, 90, 1⟩],
      learner_answers := [⟨7, 1, 5, 4⟩] }

/-- Deletion of user 1 for the C8 witness. -/
def c8_roots : DeletionRoots :=
  ⟨[1], [], [], [], [], [], [], [], [], [], [], [], []⟩

/-- Witness for C8 at a concrete database: deleting the user preserves
referential integrity and removes the user row. -/
theorem cascade_delete_spec_witness :
    (DB.cascade_delete c8_db c8_roots).wf = true ∧
    (∀ u ∈ (DB.cascade_delete c8_db c8_roots).users, u.id ∉ c8_roots.users) ∧
    (∀ c ∈ (DB.cascade_delete c8_db c8_roots).courses, c.id ∉ c8_roots.courses) ∧
    (∀ p ∈ (DB.cascade_delete c8_db c8_roots).profiles, p.id ∉ c8_roots.profiles) ∧
    (∀ a ∈ (DB.cascade_delete c8_db c8_roots).announcements, a.id ∉ c8_roots.announcements) ∧
    (∀ t ∈ (DB.cascade_delete c8_db c8_roots).tutorials, t.id ∉ c8_roots.tutorials) ∧
    (∀ n ∈ (DB.cascade_delete c8_db c8_roots).notes, n.id ∉ c8_roots.notes) ∧
    (∀ z ∈ (DB.cascade_delete c8_db c8_roots).quizzes, z.id ∉ c8_roots.quizzes) ∧
    (∀ q ∈ (DB.cascade_delete c8_db c8_roots).questions, q.id ∉ c8_roots.questions) ∧
    (∀ a ∈ (DB.cascade_delete c8_db c8_roots).answers, a.id ∉ c8_roots.answers) ∧
    (∀ l ∈ (DB.cascade_delete c8_db c8_roots).learners, l.user ∉ c8_roots.learners) ∧
    (∀ i ∈ (DB.cascade_delete c8_db c8_roots).instructors, i.id ∉ c8_roots.instructors) ∧
    (∀ t ∈ (DB.cascade_delete c8_db c8_roots).taken_quizzes, t.id ∉ c8_roots.taken_quizzes) ∧
    (∀ la ∈ (DB.cascade_delete c8_db c8_roots).learner_answers, la.id ∉ c8_roots.learner_answers) :=
  cascade_delete_spec.2 c8_db c8_roots (by decide)

end Elearn
